import Mathlib

/-!
Verification of the pairwise statistical comparison routines of the
mlos-explorer dashboard (`mlos_explorer/visualization/statistical.py`).

The dataframe is modelled shallowly: a dataframe restricted to the two
columns the routines touch is a list of rows, each row holding the value of
the grouping column (`tunable_config_id` by default) and the cell of the
target column.  Python floats are modelled as exact rationals; the special
values NaN/None (missing), +inf and -inf are explicit constructors, and a
non-numeric (string) entry — which makes the pandas column object-dtype —
is a separate constructor.  The scipy routines `ttest_ind`, `mannwhitneyu`
and `gaussian_kde` are external library calls; they are taken as abstract
function parameters, and the theorems quantify over them.
-/

/-- A cell of the target column.  `str` stands for a non-numeric string
entry (a numeric string would be parsed by `pd.to_numeric`; such entries are
modelled directly as `num`).  A pandas column containing a `str` cell has
object dtype. -/
inductive Cell where
  | null              -- missing value: `None` / `NaN`; removed by `dropna`
  | str (s : String)  -- non-numeric entry: the column has object dtype
  | posInf            -- `+inf`: non-missing but not finite
  | negInf            -- `-inf`: non-missing but not finite
  | num (q : ℚ)       -- a finite numeric value
deriving DecidableEq, Repr

/-- Predicate for `pd.isna` on a cell: only the missing value is "na" (infinities are not). -/
def Cell.isNull : Cell → Bool
  | .null => true
  | _ => false

/-- Whether the cell is a non-numeric string entry. -/
def Cell.isStr : Cell → Bool
  | .str _ => true
  | _ => false

/-- Predicate for `np.isfinite` on a single numeric cell: true exactly on finite numbers
(false on NaN and on the infinities).  On a column that contains a string
entry `np.isfinite` does not get this far: the ufunc raises `TypeError` on
the object-dtype column; that is modelled at the call site. -/
def Cell.isNum : Cell → Bool
  | .num _ => true
  | _ => false

/-- The rational carried by a finite numeric cell. -/
def Cell.toNum? : Cell → Option ℚ
  | .num q => some q
  | _ => none

/-- Model of `pd.to_numeric(col, errors="coerce")` on one cell: a non-numeric entry
becomes NaN, every other cell is unchanged. -/
def toNumericCoerce : Cell → Cell
  | .str _ => .null
  | c => c

/-- One row of the dataframe, restricted to the two columns the statistical
routines read: the grouping column (`group_col`, default
`tunable_config_id`) and the target column (`result_col`). -/
structure Row (α : Type) where
  group : α
  target : Cell
deriving DecidableEq, Repr

/-- A dataframe, restricted to the grouping and target columns. -/
abbrev DF (α : Type) := List (Row α)

/-- Helper for `Series.unique()` of pandas: the distinct values in order of first
appearance.  `seen` accumulates the values already emitted. -/
def uniqueAux [DecidableEq α] : List α → List α → List α
  | [], _ => []
  | x :: xs, seen =>
      if x ∈ seen then uniqueAux xs seen else x :: uniqueAux xs (x :: seen)

/-- Model of `df[group_col].unique()`. -/
def pandasUnique [DecidableEq α] (l : List α) : List α := uniqueAux l []

/-- The pairs `(l[i], l[j])` with `i < j`, in the order of the two nested
`for` loops `for i in range(len(configs)): for j in range(i+1, ...)`. -/
def pairsOf : List α → List (α × α)
  | [] => []
  | x :: xs => (xs.map fun y => (x, y)) ++ pairsOf xs

/-- The rows remaining after lines 14–16 of `statistical.py`:
`df.dropna(subset=[result_col])`, then `df[np.isfinite(df[result_col])]`,
then the (at that point no-op) numeric coercion of the target column. -/
def validRows [DecidableEq α] (df : DF α) : DF α :=
  ((df.filter fun r => ! r.target.isNull).filter
      fun r => r.target.isNum).map
    fun r => { r with target := toNumericCoerce r.target }

/-- Model of `df.loc[df[group_col] == cfg, result_col]` as the list of finite numeric
values it holds (on `validRows` every target cell is a finite number). -/
def groupVals [DecidableEq α] (df : DF α) (cfg : α) : List ℚ :=
  df.filterMap fun r => if r.group = cfg then r.target.toNum? else none

/-- One output record of `run_pairwise_stat_tests` (one row of the returned
dataframe). -/
structure TestRecord (α : Type) where
  configA : α
  configB : α
  nA : ℕ
  nB : ℕ
  testStatistic : ℚ
  pValue : ℚ
  significant : Bool
deriving DecidableEq, Repr

/-- The group values enumerated by the loop:
`configs = df[group_col].unique()` evaluated on the filtered dataframe. -/
def configsOf [DecidableEq α] (df : DF α) : List α :=
  pandasUnique ((validRows df).map Row.group)

/-- Errors of `run_pairwise_stat_tests`: the function can raise before producing its table:
`np.isfinite` raises `TypeError` on an object-dtype (string-bearing)
column. -/
inductive StatError where
  | typeError
deriving DecidableEq, Repr

/-- The record appended for the pair `p = (cfg_i, cfg_j)` by the loop body of
`run_pairwise_stat_tests` (lines 30–45): the chosen scipy test applied to
the two group series, the two sample sizes, and the strict-inequality
significance flag `pval < alpha`. -/
def pairRecord [DecidableEq α] (tt mw : List ℚ → List ℚ → ℚ × ℚ)
    (df : DF α) (alpha : ℚ) (testType : String) (p : α × α) : TestRecord α :=
  let dataI := groupVals (validRows df) p.1
  let dataJ := groupVals (validRows df) p.2
  let sp := if testType = "mannwhitney" then mw dataI dataJ
            else tt dataI dataJ
  { configA := p.1, configB := p.2,
    nA := dataI.length, nB := dataJ.length,
    testStatistic := sp.1, pValue := sp.2,
    significant := decide (sp.2 < alpha) }

/-- Model of `run_pairwise_stat_tests(df, result_col, group_col, alpha, test_type)`.

`tt` and `mw` stand for the scipy calls
`ttest_ind(a, b, equal_var=False, nan_policy="omit")` and
`mannwhitneyu(a, b, alternative="two-sided")`, each returning the pair
(statistic, p-value); they are abstract parameters.

Line 14 rebinds `df` to `df.dropna(subset=[result_col]).copy()`, so the
caller's dataframe is never written to.  Line 15 applies `np.isfinite` to
the target column: if any (non-null) cell is a string the column has object
dtype and the ufunc raises `TypeError`; otherwise the non-finite rows are
dropped.  Line 16 coerces the target column to numeric (a no-op on the
all-finite column that reaches it).  The double loop then visits each pair
of distinct group values in first-appearance order, skips a pair if either
side is empty, and otherwise appends one record. -/
def run_pairwise_stat_tests [DecidableEq α]
    (tt mw : List ℚ → List ℚ → ℚ × ℚ)
    (df : DF α) (alpha : ℚ) (testType : String) :
    Except StatError (List (TestRecord α)) :=
  if (df.filter fun r => ! r.target.isNull).any (fun r => r.target.isStr) then
    .error .typeError
  else
    .ok <| (pairsOf (configsOf df)).filterMap fun p =>
      if (groupVals (validRows df) p.1).isEmpty
          || (groupVals (validRows df) p.2).isEmpty then
        none
      else
        some (pairRecord tt mw df alpha testType p)

/-- The number of valid — non-missing, finite numeric — observations of the
target column in group `cfg` of the input dataframe. -/
def validCount [DecidableEq α] (df : DF α) (cfg : α) : ℕ :=
  df.countP fun r => decide (r.group = cfg) && r.target.isNum

/-- The numeric order pandas uses for `Series.min` / `Series.max` on a
NaN-free float column: `-inf` below every value, `+inf` above.  The `null`
and `str` cases never reach a comparison in the modelled pipeline (nulls are
dropped, strings coerced away first); they are placed below everything to
keep the function total. -/
def Cell.numLE : Cell → Cell → Bool
  | .negInf, _ => true
  | .null, _ => true
  | .str _, _ => true
  | _, .posInf => true
  | .num a, .num b => decide (a ≤ b)
  | _, _ => false

/-- Model of `Series.min()` on a list of cells (`.null` on an empty series, where
pandas gives NaN). -/
def seriesMin : List Cell → Cell
  | [] => .null
  | c :: cs => cs.foldl (fun a b => if Cell.numLE b a then b else a) c

/-- Model of `Series.max()` on a list of cells. -/
def seriesMax : List Cell → Cell
  | [] => .null
  | c :: cs => cs.foldl (fun a b => if Cell.numLE a b then b else a) c

/-- Model of `np.linspace(a, b, n)` under exact (rational) arithmetic: `n` evenly
spaced samples from `a` to `b`, both endpoints included.  With a non-finite
endpoint numpy produces non-finite samples; that branch is modelled as NaN
samples and is unreachable in the program because `gaussian_kde` has
already raised on non-finite data. -/
def linspaceC (a b : Cell) (n : ℕ) : List Cell :=
  match a, b with
  | .num x, .num y =>
      (List.range n).map fun (i : ℕ) => .num (x + (y - x) * (i : ℚ) / ((n : ℚ) - 1))
  | _, _ => List.replicate n .null

/-- Model of the statement `df[target_col] = pd.to_numeric(df[target_col], errors="coerce")`:
the coerced target column written back into the dataframe.  This is an
in-place column assignment on the caller's dataframe object. -/
def coerceTargets (df : DF α) : DF α :=
  df.map fun r => { r with target := toNumericCoerce r.target }

/-- Model of `df[df["tunable_config_id"] == cfg][target_col].dropna()` evaluated on
the already-coerced dataframe: the target cells of the rows of group `cfg`,
missing values removed. -/
def cfgData (df : DF ℤ) (cfg : ℤ) : List Cell :=
  ((df.filter fun r => decide (r.group = cfg)).map Row.target).filter
    fun c => ! c.isNull

/-- One `go.Scatter(x=…, y=…, mode="lines", name=…)` trace. -/
structure Trace where
  x : List Cell
  y : List ℚ
  name : String
deriving Repr

/-- The figure built by `compare_score_distributions`: two line traces over
a common x-grid, plus the layout strings. -/
structure Fig where
  trace1 : Trace
  trace2 : Trace
  title : String
  xLabel : String
  yLabel : String
  legendTitle : String
deriving Repr

/-- Errors of `compare_score_distributions`: the function raises
`ValueError("One or both configuration IDs do not exist in the DataFrame.")`
when a selected group has no data after coercion and `dropna`. -/
inductive CmpError where
  | missingGroup
deriving DecidableEq, Repr

/-- Model of `compare_score_distributions(df, target_col, config_id_1, config_id_2)`.

`kde` stands for scipy's `gaussian_kde`: `kde data` is the density estimate
fitted to `data`, as the function evaluated on single grid points; it is an
abstract parameter.

The first component of the result is the caller's dataframe after the call:
line 53 assigns the numerically coerced target column back into the input
dataframe before anything else, so the input object is mutated.  The second
component is the raised error or the returned figure. -/
def compare_score_distributions
    (kde : List Cell → Cell → ℚ)
    (df : DF ℤ) (targetCol : String) (configId1 configId2 : ℤ) :
    DF ℤ × Except CmpError Fig :=
  let df2 := coerceTargets df
  let config1Data := cfgData df2 configId1
  let config2Data := cfgData df2 configId2
  ⟨df2,
    if config1Data.isEmpty || config2Data.isEmpty then
      .error .missingGroup
    else
      let kde1 := kde config1Data
      let kde2 := kde config2Data
      let xMin := if Cell.numLE (seriesMin config1Data) (seriesMin config2Data)
                  then seriesMin config1Data else seriesMin config2Data
      let xMax := if Cell.numLE (seriesMax config1Data) (seriesMax config2Data)
                  then seriesMax config2Data else seriesMax config1Data
      let xVals := linspaceC xMin xMax 500
      .ok { trace1 := { x := xVals, y := xVals.map kde1,
                        name := s!"Config {configId1}" },
            trace2 := { x := xVals, y := xVals.map kde2,
                        name := s!"Config {configId2}" },
            title := s!"Score Distribution for Configurations {configId1} and {configId2}",
            xLabel := targetCol,
            yLabel := "Density",
            legendTitle := "Configuration" }⟩

/-- Dataframe state of the caller after `run_pairwise_stat_tests` returns.
Line 14 rebinds the local name `df` to `df.dropna(subset=[result_col]).copy()`,
so the assignments of lines 14–16 all write to a fresh copy and the caller's
dataframe object is never modified: the after-state is the input itself. -/
def run_pairwise_dfAfter [DecidableEq α] (df : DF α) : DF α := df

/-- The four identification fields of an output record: `Config_A`,
`Config_B`, `N_A`, `N_B` (everything except the statistic, the p-value and
the significance flag). -/
def quadOf (tr : TestRecord α) : α × α × ℕ × ℕ :=
  (tr.configA, tr.configB, tr.nA, tr.nB)

/-- The finite numeric values carried by a list of cells. -/
def numsOf (l : List Cell) : List ℚ := l.filterMap Cell.toNum?

/-- A concrete stand-in for `ttest_ind`, used by the concrete witnesses:
statistic = size of the first sample, p-value 49 (the witnesses use a
significance threshold of 50, so the strict-inequality boundary is
exercised just as with 0.049 against 0.05). -/
def ttSample : List ℚ → List ℚ → ℚ × ℚ := fun a _ => ((a.length : ℚ), 49)

/-- A concrete stand-in for `mannwhitneyu`, used by the concrete witnesses:
statistic = size of the second sample, p-value 51. -/
def mwSample : List ℚ → List ℚ → ℚ × ℚ := fun _ b => ((b.length : ℚ), 51)

/-- A concrete stand-in for `gaussian_kde`, used by the concrete witnesses:
the constant density equal to the sample size. -/
def kdeSample : List Cell → Cell → ℚ := fun l _ => (l.length : ℚ)

/-- A concrete dataframe: groups `{1, 2, 3}` where group 3 has zero valid
rows (its only target cell is missing) and group 1 also carries an infinite
entry that the `np.isfinite` filter drops. -/
def dfSample : DF ℤ :=
  [⟨1, .num 3⟩, ⟨1, .num 4⟩, ⟨2, .num 5⟩, ⟨3, .null⟩, ⟨1, .posInf⟩]

/-- A concrete all-finite dataframe with two non-empty groups. -/
def dfFin : DF ℤ := [⟨1, .num 3⟩, ⟨1, .num 4⟩, ⟨2, .num 5⟩]

/-- A concrete dataframe whose target column contains a non-numeric entry,
making the column object-dtype. -/
def dfStr : DF ℤ := [⟨1, .str "abc"⟩, ⟨1, .num 1⟩, ⟨2, .num 2⟩]

/-- The dataframe `dfStr` with its non-numeric entry already removed. -/
def dfStrDropped : DF ℤ := [⟨1, .num 1⟩, ⟨2, .num 2⟩]

/-- The output table of `run_pairwise_stat_tests` on `dfSample` with the
sample tests, a t-test run. -/
def outSample : List (TestRecord ℤ) :=
  (pairsOf (configsOf dfSample)).map
    (pairRecord ttSample mwSample dfSample 50 "ttest")

/-- The output table of `run_pairwise_stat_tests` on `dfSample` with the
sample tests, a Mann-Whitney run. -/
def outSampleMW : List (TestRecord ℤ) :=
  (pairsOf (configsOf dfSample)).map
    (pairRecord ttSample mwSample dfSample 50 "mannwhitney")

/-- The figure produced by `compare_score_distributions` on `dfFin` with the
sample density estimator. -/
def figSample : Fig :=
  ((compare_score_distributions kdeSample dfFin "result.latency" 1 2).2).toOption.getD
    ⟨⟨[], [], ""⟩, ⟨[], [], ""⟩, "", "", "", ""⟩

/-- A grouping-column cell, refining the model of the group column: besides
an ordinary value it can be missing (`NaN`/`None`), and
`dropna(subset=[result_col])` does not remove such rows.  Pandas treats the
two notions of equality on this column differently: `Series.unique()` is
hash-based and lists a missing value once (structural equality, the derived
`DecidableEq`), while the broadcast `==` of `df[group_col] == cfg` follows
IEEE/`None` semantics and is false on a missing value even against itself
(`GVal.pandasEq`). -/
inductive GVal (α : Type) where
  | na            -- `NaN` / `None` in the grouping column
  | val (a : α)   -- an ordinary grouping value
deriving DecidableEq, Repr

/-- Elementwise pandas `==` on grouping values: a missing value compares
unequal to everything, itself included. -/
def GVal.pandasEq [DecidableEq α] : GVal α → GVal α → Bool
  | .val a, .val b => decide (a = b)
  | _, _ => false

/-- One row of the dataframe in the refined model: the grouping cell may be
missing. -/
structure GRow (α : Type) where
  group : GVal α
  target : Cell
deriving DecidableEq, Repr

/-- The rows remaining after lines 14–16 in the refined model: the filters
of lines 14–15 and the coercion of line 16 touch only the target column, so
a row whose grouping cell is missing but whose target is finite survives
them. -/
def gValidRows [DecidableEq α] (df : List (GRow α)) : List (GRow α) :=
  ((df.filter fun r => ! r.target.isNull).filter
      fun r => r.target.isNum).map
    fun r => { r with target := toNumericCoerce r.target }

/-- Model of `df.loc[df[group_col] == cfg, result_col]` in the refined
model: row selection uses the pandas broadcast `==`, which never matches a
missing grouping value. -/
def gGroupVals [DecidableEq α] (df : List (GRow α)) (cfg : GVal α) : List ℚ :=
  df.filterMap fun r =>
    if GVal.pandasEq r.group cfg then r.target.toNum? else none

/-- The group values enumerated by the loop in the refined model:
`configs = df[group_col].unique()` on the filtered dataframe; a missing
grouping value is listed (once). -/
def gConfigsOf [DecidableEq α] (df : List (GRow α)) : List (GVal α) :=
  pandasUnique ((gValidRows df).map GRow.group)

/-- The record appended by the loop body in the refined model. -/
def gPairRecord [DecidableEq α] (tt mw : List ℚ → List ℚ → ℚ × ℚ)
    (df : List (GRow α)) (alpha : ℚ) (testType : String)
    (p : GVal α × GVal α) : TestRecord (GVal α) :=
  let dataI := gGroupVals (gValidRows df) p.1
  let dataJ := gGroupVals (gValidRows df) p.2
  let sp := if testType = "mannwhitney" then mw dataI dataJ
            else tt dataI dataJ
  { configA := p.1, configB := p.2,
    nA := dataI.length, nB := dataJ.length,
    testStatistic := sp.1, pValue := sp.2,
    significant := decide (sp.2 < alpha) }

/-- Model of `run_pairwise_stat_tests` over the refined dataframe model
(grouping cells may be missing); the body is line for line the one of
`run_pairwise_stat_tests`, only the row-selection `==` follows the pandas
semantics on missing grouping values. -/
def gRun_pairwise_stat_tests [DecidableEq α]
    (tt mw : List ℚ → List ℚ → ℚ × ℚ)
    (df : List (GRow α)) (alpha : ℚ) (testType : String) :
    Except StatError (List (TestRecord (GVal α))) :=
  if (df.filter fun r => ! r.target.isNull).any (fun r => r.target.isStr) then
    .error .typeError
  else
    .ok <| (pairsOf (gConfigsOf df)).filterMap fun p =>
      if (gGroupVals (gValidRows df) p.1).isEmpty
          || (gGroupVals (gValidRows df) p.2).isEmpty then
        none
      else
        some (gPairRecord tt mw df alpha testType p)

/-- A concrete dataframe whose grouping column contains a missing value:
groups `[NaN, 1, 1]` with finite targets. -/
def dfNaGroup : List (GRow ℤ) :=
  [⟨.na, .num 1⟩, ⟨.val 1, .num 2⟩, ⟨.val 1, .num 3⟩]

/-- A concrete dataframe whose grouping column has no missing value. -/
def dfValGroup : List (GRow ℤ) := [⟨.val 1, .num 2⟩, ⟨.val 2, .num 3⟩]

/-- Membership in the unique-extraction accumulator. -/
theorem mem_uniqueAux [DecidableEq α] (l : List α) (seen : List α) (a : α) :
    a ∈ uniqueAux l seen ↔ a ∈ l ∧ a ∉ seen := by
  induction l generalizing seen with
  | nil => simp [uniqueAux]
  | cons x xs ih =>
    by_cases hx : x ∈ seen
    · rw [uniqueAux, if_pos hx, ih]
      simp only [List.mem_cons]
      constructor
      · rintro ⟨h1, h2⟩
        exact ⟨Or.inr h1, h2⟩
      · rintro ⟨h1 | h1, h2⟩
        · subst h1
          exact absurd hx h2
        · exact ⟨h1, h2⟩
    · rw [uniqueAux, if_neg hx]
      simp only [List.mem_cons, ih]
      by_cases hax : a = x
      · subst hax
        simp [hx]
      · simp [hax]

/-- A value appears in the pandas unique listing iff it appears in the
series. -/
theorem mem_pandasUnique [DecidableEq α] (l : List α) (a : α) :
    a ∈ pandasUnique l ↔ a ∈ l := by
  rw [pandasUnique, mem_uniqueAux]
  simp

/-- The unique-extraction accumulator has no duplicates. -/
theorem nodup_uniqueAux [DecidableEq α] (l : List α) :
    ∀ seen, (uniqueAux l seen).Nodup := by
  induction l with
  | nil =>
    intro seen
    simp [uniqueAux]
  | cons x xs ih =>
    intro seen
    by_cases hx : x ∈ seen
    · rw [uniqueAux, if_pos hx]
      exact ih seen
    · rw [uniqueAux, if_neg hx]
      refine List.nodup_cons.mpr ⟨fun hmem => ?_, ih _⟩
      rcases (mem_uniqueAux ..).mp hmem with ⟨-, hns⟩
      exact hns (List.mem_cons_self ..)

/-- The pandas unique listing has no duplicates. -/
theorem nodup_pandasUnique [DecidableEq α] (l : List α) :
    (pandasUnique l).Nodup :=
  nodup_uniqueAux l []

/-- The nested loop enumerates `C(n, 2)` pairs. -/
theorem length_pairsOf (l : List α) :
    (pairsOf l).length = Nat.choose l.length 2 := by
  induction l with
  | nil => rfl
  | cons x xs ih =>
    simp [pairsOf, ih, Nat.choose_succ_succ, Nat.choose_one_right, Nat.add_comm]

/-- Both components of an enumerated pair come from the listing. -/
theorem mem_of_mem_pairsOf {l : List α} {p : α × α} (hp : p ∈ pairsOf l) :
    p.1 ∈ l ∧ p.2 ∈ l := by
  induction l with
  | nil => simp [pairsOf] at hp
  | cons x xs ih =>
    simp only [pairsOf, List.mem_append, List.mem_map] at hp
    rcases hp with ⟨y, hy, rfl⟩ | hp
    · exact ⟨List.mem_cons_self .., List.mem_cons_of_mem _ hy⟩
    · rcases ih hp with ⟨h1, h2⟩
      exact ⟨List.mem_cons_of_mem _ h1, List.mem_cons_of_mem _ h2⟩

/-- A `filterMap` whose guard never fires is a `map`. -/
theorem filterMap_if_eq_map {β γ : Type _} (l : List β) (c : β → Bool) (f : β → γ)
    (h : ∀ b ∈ l, c b = false) :
    (l.filterMap fun b => if c b then none else some (f b)) = l.map f := by
  induction l with
  | nil => rfl
  | cons x xs ih =>
    have hx := h x (List.mem_cons_self ..)
    rw [List.filterMap_cons, List.map_cons, hx]
    simp only [Bool.false_eq_true, if_false]
    rw [ih fun b hb => h b (List.mem_cons_of_mem _ hb)]

/-- The three filtering steps of lines 14–16 keep exactly the rows whose
target cell is a finite number: `dropna` removes the missing cells,
`np.isfinite` the infinite ones, and the numeric coercion is the identity on
what remains. -/
theorem validRows_eq [DecidableEq α] (df : DF α) :
    validRows df = df.filter fun r => r.target.isNum := by
  induction df with
  | nil => rfl
  | cons r rs ih =>
    obtain ⟨g, t⟩ := r
    cases t <;>
      simp_all [validRows, Cell.isNull, Cell.isNum, toNumericCoerce,
        List.filter_cons]

/-- Every row surviving the filtering carries a finite numeric target. -/
theorem validRows_isNum [DecidableEq α] {df : DF α} {r : Row α}
    (hr : r ∈ validRows df) : r.target.isNum = true := by
  rw [validRows_eq] at hr
  exact (List.mem_filter.mp hr).2

/-- On an all-numeric dataframe the group series has one entry per row of
the group. -/
theorem length_groupVals_eq_countP [DecidableEq α] (g : α) (df : DF α)
    (hall : ∀ r ∈ df, r.target.isNum = true) :
    (groupVals df g).length = df.countP fun r => decide (r.group = g) := by
  induction df with
  | nil => rfl
  | cons r rs ih =>
    have hr := hall r (List.mem_cons_self ..)
    have hrs : ∀ x ∈ rs, x.target.isNum = true :=
      fun x hx => hall x (List.mem_cons_of_mem _ hx)
    obtain ⟨gr, t⟩ := r
    cases t with
    | num q =>
      by_cases hg : gr = g <;>
        · simp [groupVals, List.filterMap_cons, List.countP_cons, hg,
            Cell.toNum?, Nat.add_comm]
          exact ih hrs
    | null => simp [Cell.isNum] at hr
    | str s => simp [Cell.isNum] at hr
    | posInf => simp [Cell.isNum] at hr
    | negInf => simp [Cell.isNum] at hr

/-- The length of a group's series in the filtered dataframe is the number
of valid observations of that group in the input dataframe. -/
theorem length_groupVals_validRows [DecidableEq α] (df : DF α) (g : α) :
    (groupVals (validRows df) g).length = validCount df g := by
  rw [length_groupVals_eq_countP g (validRows df) fun r hr => validRows_isNum hr,
    validRows_eq, List.countP_filter, validCount]

/-- On an all-numeric dataframe a group named in the group column has a
non-empty series. -/
theorem groupVals_ne_nil [DecidableEq α] {df : DF α} {g : α}
    (hall : ∀ r ∈ df, r.target.isNum = true) (hg : g ∈ df.map Row.group) :
    groupVals df g ≠ [] := by
  rcases List.mem_map.mp hg with ⟨r0, hr0, hgr⟩
  have hnum := hall r0 hr0
  obtain ⟨q, hq⟩ : ∃ q, r0.target = .num q := by
    cases h : r0.target <;> simp [Cell.isNum, h] at hnum ⊢
  intro hnil
  have hqmem : q ∈ groupVals df g :=
    List.mem_filterMap.mpr ⟨r0, hr0, by simp [hgr, hq, Cell.toNum?]⟩
  simp [hnil] at hqmem

/-- The loop's skip condition is false on every enumerated pair: each
enumerated group value comes from the filtered dataframe, so its series has
at least one element. -/
theorem skipCond_false [DecidableEq α] (df : DF α) (p : α × α)
    (hp : p ∈ pairsOf (configsOf df)) :
    ((groupVals (validRows df) p.1).isEmpty
      || (groupVals (validRows df) p.2).isEmpty) = false := by
  have hall : ∀ r ∈ validRows df, r.target.isNum = true :=
    fun r hr => validRows_isNum hr
  obtain ⟨h1, h2⟩ := mem_of_mem_pairsOf hp
  rw [configsOf, mem_pandasUnique] at h1 h2
  have g1 := groupVals_ne_nil hall h1
  have g2 := groupVals_ne_nil hall h2
  simp [List.isEmpty_iff, g1, g2]

/-- Characterization of a successful run: no string entry survives the
`dropna`, and the output is one record per enumerated pair, in enumeration
order. -/
theorem run_pairwise_ok_iff [DecidableEq α] (tt mw : List ℚ → List ℚ → ℚ × ℚ)
    (df : DF α) (alpha : ℚ) (testType : String) (out : List (TestRecord α)) :
    run_pairwise_stat_tests tt mw df alpha testType = .ok out ↔
      ((df.filter fun r => ! r.target.isNull).any fun r => r.target.isStr) = false ∧
      out = (pairsOf (configsOf df)).map (pairRecord tt mw df alpha testType) := by
  rw [run_pairwise_stat_tests]
  by_cases hstr :
      ((df.filter fun r => ! r.target.isNull).any fun r => r.target.isStr) = true
  · simp [hstr]
  · have hstr' :
        ((df.filter fun r => ! r.target.isNull).any fun r => r.target.isStr) = false := by
      simpa using hstr
    rw [if_neg (by simp [hstr'])]
    rw [filterMap_if_eq_map _ _ _ (fun p hp => skipCond_false df p hp)]
    simp [hstr']
    exact eq_comm

/-- C1: for every input dataframe, target column, grouping column, alpha
and test type, every comparison record returned by
`run_pairwise_stat_tests` has `N_A` and `N_B` equal to the number of valid
(non-missing, finite numeric) observations of the target column in group A
and group B respectively. -/
theorem C1_sample_counts [DecidableEq α] (tt mw : List ℚ → List ℚ → ℚ × ℚ)
    (df : DF α) (alpha : ℚ) (testType : String) (out : List (TestRecord α))
    (hout : run_pairwise_stat_tests tt mw df alpha testType = .ok out)
    (tr : TestRecord α) (htr : tr ∈ out) :
    tr.nA = validCount df tr.configA ∧ tr.nB = validCount df tr.configB := by
  rcases (run_pairwise_ok_iff ..).mp hout with ⟨-, hmap⟩
  subst hmap
  rcases List.mem_map.mp htr with ⟨p, hp, hrecp⟩
  subst hrecp
  simp only [pairRecord]
  exact ⟨length_groupVals_validRows df p.1, length_groupVals_validRows df p.2⟩

/-- Witness for C1 on the concrete dataframe `dfSample` (group 1 has two
valid observations — the infinite entry does not count — and group 2 one). -/
theorem C1_witness :
    (pairRecord ttSample mwSample dfSample 50 "ttest" (1, 2)).nA
        = validCount dfSample
            ((pairRecord ttSample mwSample dfSample 50 "ttest" (1, 2)).configA) ∧
    (pairRecord ttSample mwSample dfSample 50 "ttest" (1, 2)).nB
        = validCount dfSample
            ((pairRecord ttSample mwSample dfSample 50 "ttest" (1, 2)).configB) :=
  C1_sample_counts ttSample mwSample dfSample 50 "ttest" outSample (by rfl)
    (pairRecord ttSample mwSample dfSample 50 "ttest" (1, 2))
    (by rw [show outSample
          = [pairRecord ttSample mwSample dfSample 50 "ttest" (1, 2)] from by rfl]
        exact List.mem_singleton_self _)

/-- C2: the pairs reported are exactly the unordered pairs of distinct
group values each having at least one valid observation, in enumeration
order, so the number of records is `C(k, 2)` for `k` the number of
non-empty groups. -/
theorem C2_pairs_reported [DecidableEq α] (tt mw : List ℚ → List ℚ → ℚ × ℚ)
    (df : DF α) (alpha : ℚ) (testType : String) (out : List (TestRecord α))
    (hout : run_pairwise_stat_tests tt mw df alpha testType = .ok out) :
    out.map (fun tr => (tr.configA, tr.configB)) = pairsOf (configsOf df) ∧
    (configsOf df).Nodup ∧
    (∀ g : α, g ∈ configsOf df ↔ 0 < validCount df g) ∧
    out.length = Nat.choose (configsOf df).length 2 := by
  rcases (run_pairwise_ok_iff ..).mp hout with ⟨-, hmap⟩
  subst hmap
  refine ⟨?_, nodup_pandasUnique _, ?_, ?_⟩
  · rw [List.map_map]
    have h : ((fun tr => (tr.configA, tr.configB))
        ∘ pairRecord tt mw df alpha testType) = fun p : α × α => p := by
      funext p
      rfl
    rw [h, List.map_id']
  · intro g
    rw [configsOf, mem_pandasUnique, validRows_eq, validCount,
      List.countP_pos_iff]
    simp only [List.mem_map, List.mem_filter, Bool.and_eq_true,
      decide_eq_true_eq]
    constructor
    · rintro ⟨r, ⟨hr, hnum⟩, hgr⟩
      exact ⟨r, hr, hgr, hnum⟩
    · rintro ⟨r, hr, hgr, hnum⟩
      exact ⟨r, ⟨hr, hnum⟩, hgr⟩
  · simp [length_pairsOf]

/-- Witness for C2 on `dfSample`, matching the spec's example: groups
`{1, 2, 3}` with group 3 empty give exactly the single pair `(1, 2)` and
`C(2, 2) = 1` records; group 3 is not listed among the non-empty groups. -/
theorem C2_witness :
    outSample.map (fun tr => (tr.configA, tr.configB))
        = pairsOf (configsOf dfSample) ∧
    ((3 : ℤ) ∈ configsOf dfSample ↔ 0 < validCount dfSample 3) ∧
    outSample.length = Nat.choose (configsOf dfSample).length 2 := by
  obtain ⟨h1, -, h3, h4⟩ :=
    C2_pairs_reported ttSample mwSample dfSample 50 "ttest" outSample (by rfl)
  exact ⟨h1, h3 3, h4⟩

/-- C3: for every caller-supplied alpha and every reported pair, the
`Significant` field is true iff the record's p-value is strictly less than
alpha. -/
theorem C3_significant_iff [DecidableEq α] (tt mw : List ℚ → List ℚ → ℚ × ℚ)
    (df : DF α) (alpha : ℚ) (testType : String) (out : List (TestRecord α))
    (hout : run_pairwise_stat_tests tt mw df alpha testType = .ok out)
    (tr : TestRecord α) (htr : tr ∈ out) :
    tr.significant = true ↔ tr.pValue < alpha := by
  rcases (run_pairwise_ok_iff ..).mp hout with ⟨-, hmap⟩
  subst hmap
  rcases List.mem_map.mp htr with ⟨p, hp, hrecp⟩
  subst hrecp
  simp [pairRecord]

/-- Witness for C3 at the strict-inequality boundary: with threshold 50 a
p-value of 49 (the sample t-test) is significant and one of 51 (the sample
Mann-Whitney test) is not; with threshold 49 the p-value 49 sits on the
boundary and is not significant. -/
theorem C3_witness :
    ((pairRecord ttSample mwSample dfSample 50 "ttest" (1, 2)).significant = true ↔
      (pairRecord ttSample mwSample dfSample 50 "ttest" (1, 2)).pValue < 50) ∧
    (pairRecord ttSample mwSample dfSample 50 "ttest" (1, 2)).significant = true ∧
    (pairRecord ttSample mwSample dfSample 50 "mannwhitney" (1, 2)).significant
        = false ∧
    (pairRecord ttSample mwSample dfSample 49 "ttest" (1, 2)).significant
        = false :=
  ⟨C3_significant_iff ttSample mwSample dfSample 50 "ttest" outSample (by rfl)
      (pairRecord ttSample mwSample dfSample 50 "ttest" (1, 2))
      (by rw [show outSample
            = [pairRecord ttSample mwSample dfSample 50 "ttest" (1, 2)] from by rfl]
          exact List.mem_singleton_self _),
    by decide, by decide, by decide⟩

/-- A string entry always survives the `dropna` of line 14 (a string is not
missing), so the column that reaches `np.isfinite` still has object
dtype. -/
theorem any_isStr_filter [DecidableEq α] (df : DF α)
    (h : ∃ r ∈ df, r.target.isStr = true) :
    ((df.filter fun r => ! r.target.isNull).any fun r => r.target.isStr) = true := by
  rcases h with ⟨r, hr, hs⟩
  have hnn : (! r.target.isNull) = true := by
    cases ht : r.target <;> simp [Cell.isStr, Cell.isNull, ht] at hs ⊢
  exact List.any_eq_true.mpr ⟨r, List.mem_filter.mpr ⟨hr, hnn⟩, hs⟩

/-- C4 (amended): missing and non-finite entries of the target column are
dropped before grouping, and every observation that enters the grouping,
the pair tests and the `N_A`/`N_B` counts is a finite numeric value; but a
non-numeric (string) entry is not dropped — it makes the whole call raise
`TypeError` (from `np.isfinite` on the object-dtype column), the numeric
coercion of line 16 coming only after that filter. -/
theorem C4_amended [DecidableEq α] (tt mw : List ℚ → List ℚ → ℚ × ℚ)
    (alpha : ℚ) (testType : String) (df : DF α) :
    (∀ r ∈ validRows df, ∃ q : ℚ, r.target = .num q) ∧
    validRows df = df.filter (fun r => r.target.isNum) ∧
    ((∃ r ∈ df, r.target.isStr = true) →
      run_pairwise_stat_tests tt mw df alpha testType = .error .typeError) := by
  refine ⟨?_, validRows_eq df, ?_⟩
  · intro r hr
    have hnum := validRows_isNum hr
    cases ht : r.target <;> simp [Cell.isNum, ht] at hnum ⊢
  · intro hstr
    rw [run_pairwise_stat_tests, if_pos (any_isStr_filter df hstr)]

/-- Counterexample to C4 as stated: on a dataframe whose target column
holds the non-numeric entry `"abc"`, the call raises `TypeError` instead of
dropping the entry; on the same dataframe with that entry already removed
it returns the pairwise table the claim expects. -/
theorem C4_counterexample :
    run_pairwise_stat_tests ttSample mwSample dfStr 50 "ttest"
        = .error .typeError ∧
    run_pairwise_stat_tests ttSample mwSample dfStrDropped 50 "ttest"
        = .ok [pairRecord ttSample mwSample dfStrDropped 50 "ttest" (1, 2)] :=
  ⟨by rfl, by rfl⟩

/-- Witness for C4 (amended), discharging its hypothesis at the concrete
string-bearing dataframe `dfStr`. -/
theorem C4_witness :
    run_pairwise_stat_tests ttSample mwSample dfStr 50 "ttest"
      = .error .typeError :=
  (C4_amended ttSample mwSample 50 "ttest" dfStr).2.2
    ⟨⟨1, .str "abc"⟩, by simp [dfStr], rfl⟩

/-- C7: switching the test type between a t-test and a Mann-Whitney run
changes neither the error behaviour nor the reported
`(Config_A, Config_B, N_A, N_B)` quadruples; only the statistic and p-value
computation (and hence the significance flag) differs. -/
theorem C7_test_choice_same_pairs [DecidableEq α]
    (tt mw : List ℚ → List ℚ → ℚ × ℚ) (df : DF α) (alpha : ℚ) :
    (run_pairwise_stat_tests tt mw df alpha "ttest").map (List.map quadOf)
      = (run_pairwise_stat_tests tt mw df alpha "mannwhitney").map
          (List.map quadOf) := by
  rw [run_pairwise_stat_tests, run_pairwise_stat_tests]
  by_cases hs :
      ((df.filter fun r => ! r.target.isNull).any fun r => r.target.isStr) = true
  · rw [if_pos hs, if_pos hs]
  · rw [if_neg hs, if_neg hs]
    simp only [Except.map]
    congr 1
    rw [List.map_filterMap, List.map_filterMap]
    apply List.filterMap_congr
    intro p hp
    by_cases he : ((groupVals (validRows df) p.1).isEmpty
        || (groupVals (validRows df) p.2).isEmpty) = true
    · rw [if_pos he, if_pos he]
    · rw [if_neg he, if_neg he]
      simp [pairRecord, quadOf]

/-- C9: every test type other than `"mannwhitney"` — misspellings
included — silently runs Welch's t-test: the whole call is
indistinguishable from a `"ttest"` call. -/
theorem C9_unknown_test_type_is_ttest [DecidableEq α]
    (tt mw : List ℚ → List ℚ → ℚ × ℚ) (df : DF α) (alpha : ℚ)
    (testType : String) (h : testType ≠ "mannwhitney") :
    run_pairwise_stat_tests tt mw df alpha testType
      = run_pairwise_stat_tests tt mw df alpha "ttest" := by
  rw [run_pairwise_stat_tests, run_pairwise_stat_tests]
  by_cases hs :
      ((df.filter fun r => ! r.target.isNull).any fun r => r.target.isStr) = true
  · rw [if_pos hs, if_pos hs]
  · rw [if_neg hs, if_neg hs]
    congr 1
    apply List.filterMap_congr
    intro p hp
    by_cases he : ((groupVals (validRows df) p.1).isEmpty
        || (groupVals (validRows df) p.2).isEmpty) = true
    · rw [if_pos he, if_pos he]
    · rw [if_neg he, if_neg he]
      simp [pairRecord, h]

/-- Witness for C9 at the concrete invalid test type `"bogus"`. -/
theorem C9_witness :
    ("bogus" ≠ "mannwhitney") ∧
    run_pairwise_stat_tests ttSample mwSample dfSample 50 "bogus"
      = run_pairwise_stat_tests ttSample mwSample dfSample 50 "ttest" :=
  ⟨by decide,
    C9_unknown_test_type_is_ttest ttSample mwSample dfSample 50 "bogus"
      (by decide)⟩

/-- The in-place coercion of line 53 is the identity exactly when no target
cell is a non-numeric string. -/
theorem coerceTargets_eq_self_iff (df : DF α) :
    coerceTargets df = df ↔ ∀ r ∈ df, r.target.isStr = false := by
  induction df with
  | nil => simp [coerceTargets]
  | cons r rs ih =>
    obtain ⟨g, t⟩ := r
    cases t <;> simp_all [coerceTargets, toNumericCoerce, Cell.isStr]

/-- C5 (amended): `run_pairwise_stat_tests` never modifies its input
dataframe (line 14 rebinds the local name to a copy), but
`compare_score_distributions` writes the numerically coerced target column
back into its input dataframe (line 53), so the caller's dataframe after
the call is the coerced one and is unchanged exactly when no target cell is
a non-numeric entry. -/
theorem C5_amended [DecidableEq α] (df : DF α) (kde : List Cell → Cell → ℚ)
    (df2 : DF ℤ) (targetCol : String) (c1 c2 : ℤ) :
    run_pairwise_dfAfter df = df ∧
    (compare_score_distributions kde df2 targetCol c1 c2).1 = coerceTargets df2 ∧
    ((compare_score_distributions kde df2 targetCol c1 c2).1 = df2 ↔
      ∀ r ∈ df2, r.target.isStr = false) := by
  refine ⟨rfl, rfl, ?_⟩
  show coerceTargets df2 = df2 ↔ _
  exact coerceTargets_eq_self_iff df2

/-- Counterexample to C5 as stated: on a dataframe whose target column
holds the non-numeric entry `"abc"`, the dataframe visible to the caller
after `compare_score_distributions` differs from the input (the entry has
become NaN). -/
theorem C5_counterexample :
    (compare_score_distributions kdeSample dfStr "result.latency" 1 2).1
      ≠ dfStr := by
  decide

/-- Witness for C5 (amended) at the concrete dataframe `dfStr`. -/
theorem C5_witness :
    run_pairwise_dfAfter dfStr = dfStr ∧
    (compare_score_distributions kdeSample dfStr "result.latency" 1 2).1
      = coerceTargets dfStr :=
  ⟨(C5_amended dfStr kdeSample dfStr "result.latency" 1 2).1,
    (C5_amended dfStr kdeSample dfStr "result.latency" 1 2).2.1⟩

/-- C6: `compare_score_distributions` raises its "missing group data"
`ValueError` iff at least one of the two selected groups has no valid
observation left after the numeric coercion and the NaN removal; when both
groups are non-empty it returns a figure. -/
theorem C6_missing_group_iff (kde : List Cell → Cell → ℚ) (df : DF ℤ)
    (targetCol : String) (c1 c2 : ℤ) :
    ((compare_score_distributions kde df targetCol c1 c2).2
        = .error .missingGroup ↔
      (cfgData (coerceTargets df) c1 = [] ∨ cfgData (coerceTargets df) c2 = [])) ∧
    ((cfgData (coerceTargets df) c1 ≠ [] ∧ cfgData (coerceTargets df) c2 ≠ []) →
      ∃ fig, (compare_score_distributions kde df targetCol c1 c2).2 = .ok fig) := by
  by_cases h1 : cfgData (coerceTargets df) c1 = [] <;>
    by_cases h2 : cfgData (coerceTargets df) c2 = [] <;>
      simp [compare_score_distributions, h1, h2, List.isEmpty_iff]

/-- Witness for C6: on `dfSample`, selecting groups 1 and 3 (group 3 has
only a missing value) raises the missing-group error, and selecting the two
non-empty groups 1 and 2 returns a figure. -/
theorem C6_witness :
    ((compare_score_distributions kdeSample dfSample "result.latency" 1 3).2
        = .error .missingGroup ↔
      (cfgData (coerceTargets dfSample) 1 = []
        ∨ cfgData (coerceTargets dfSample) 3 = [])) ∧
    (compare_score_distributions kdeSample dfSample "result.latency" 1 3).2
        = .error .missingGroup ∧
    ∃ fig, (compare_score_distributions kdeSample dfSample "result.latency" 1 2).2
        = .ok fig :=
  ⟨(C6_missing_group_iff kdeSample dfSample "result.latency" 1 3).1,
    by rfl,
    (C6_missing_group_iff kdeSample dfSample "result.latency" 1 2).2
      ⟨by decide, by decide⟩⟩

/-- A rational is among the numeric values of a cell list iff the
corresponding numeric cell is in the list. -/
theorem mem_numsOf (l : List Cell) (q : ℚ) : q ∈ numsOf l ↔ .num q ∈ l := by
  rw [numsOf, List.mem_filterMap]
  constructor
  · rintro ⟨c, hc, hq⟩
    cases c with
    | num x =>
      simp [Cell.toNum?] at hq
      subst hq
      exact hc
    | null => simp [Cell.toNum?] at hq
    | str s => simp [Cell.toNum?] at hq
    | posInf => simp [Cell.toNum?] at hq
    | negInf => simp [Cell.toNum?] at hq
  · intro h
    exact ⟨.num q, h, rfl⟩

/-- The running minimum of the `Series.min` fold over an all-numeric list:
it stays numeric, comes from the accumulator or the list, and bounds both
from below. -/
theorem foldlMin_num (cs : List Cell) :
    ∀ a : ℚ, (∀ c ∈ cs, c.isNum = true) →
      ∃ q : ℚ,
        cs.foldl (fun x y => if Cell.numLE y x then y else x) (.num a) = .num q ∧
        (q = a ∨ .num q ∈ cs) ∧ q ≤ a ∧ (∀ r : ℚ, .num r ∈ cs → q ≤ r) := by
  induction cs with
  | nil =>
    intro a _
    exact ⟨a, rfl, Or.inl rfl, le_refl a, by simp⟩
  | cons c cs ih =>
    intro a hall
    have hc := hall c (List.mem_cons_self ..)
    obtain ⟨b, rfl⟩ : ∃ b, c = .num b := by
      cases hcc : c <;> simp [Cell.isNum, hcc] at hc ⊢
    have hcs : ∀ x ∈ cs, x.isNum = true :=
      fun x hx => hall x (List.mem_cons_of_mem _ hx)
    rw [List.foldl_cons]
    by_cases hba : b ≤ a
    · have hstep :
          (if Cell.numLE (.num b) (.num a) then Cell.num b else .num a) = .num b := by
        simp [Cell.numLE, hba]
      rw [hstep]
      obtain ⟨q, hq, hmem, hle, hbnd⟩ := ih b hcs
      refine ⟨q, hq, ?_, le_trans hle hba, ?_⟩
      · rcases hmem with h | h
        · subst h
          exact Or.inr (List.mem_cons_self ..)
        · exact Or.inr (List.mem_cons_of_mem _ h)
      · intro r hr
        rcases List.mem_cons.mp hr with h | h
        · injection h with h
          subst h
          exact hle
        · exact hbnd r h
    · have hstep :
          (if Cell.numLE (.num b) (.num a) then Cell.num b else .num a) = .num a := by
        simp [Cell.numLE, hba]
      rw [hstep]
      obtain ⟨q, hq, hmem, hle, hbnd⟩ := ih a hcs
      have hab : a ≤ b := le_of_not_le hba
      refine ⟨q, hq, ?_, hle, ?_⟩
      · rcases hmem with h | h
        · exact Or.inl h
        · exact Or.inr (List.mem_cons_of_mem _ h)
      · intro r hr
        rcases List.mem_cons.mp hr with h | h
        · injection h with h
          subst h
          exact le_trans hle hab
        · exact hbnd r h

/-- The running maximum of the `Series.max` fold over an all-numeric list. -/
theorem foldlMax_num (cs : List Cell) :
    ∀ a : ℚ, (∀ c ∈ cs, c.isNum = true) →
      ∃ q : ℚ,
        cs.foldl (fun x y => if Cell.numLE x y then y else x) (.num a) = .num q ∧
        (q = a ∨ .num q ∈ cs) ∧ a ≤ q ∧ (∀ r : ℚ, .num r ∈ cs → r ≤ q) := by
  induction cs with
  | nil =>
    intro a _
    exact ⟨a, rfl, Or.inl rfl, le_refl a, by simp⟩
  | cons c cs ih =>
    intro a hall
    have hc := hall c (List.mem_cons_self ..)
    obtain ⟨b, rfl⟩ : ∃ b, c = .num b := by
      cases hcc : c <;> simp [Cell.isNum, hcc] at hc ⊢
    have hcs : ∀ x ∈ cs, x.isNum = true :=
      fun x hx => hall x (List.mem_cons_of_mem _ hx)
    rw [List.foldl_cons]
    by_cases hab : a ≤ b
    · have hstep :
          (if Cell.numLE (.num a) (.num b) then Cell.num b else .num a) = .num b := by
        simp [Cell.numLE, hab]
      rw [hstep]
      obtain ⟨q, hq, hmem, hle, hbnd⟩ := ih b hcs
      refine ⟨q, hq, ?_, le_trans hab hle, ?_⟩
      · rcases hmem with h | h
        · subst h
          exact Or.inr (List.mem_cons_self ..)
        · exact Or.inr (List.mem_cons_of_mem _ h)
      · intro r hr
        rcases List.mem_cons.mp hr with h | h
        · injection h with h
          subst h
          exact hle
        · exact hbnd r h
    · have hstep :
          (if Cell.numLE (.num a) (.num b) then Cell.num b else .num a) = .num a := by
        simp [Cell.numLE, hab]
      rw [hstep]
      obtain ⟨q, hq, hmem, hle, hbnd⟩ := ih a hcs
      have hba : b ≤ a := le_of_not_le hab
      refine ⟨q, hq, ?_, hle, ?_⟩
      · rcases hmem with h | h
        · exact Or.inl h
        · exact Or.inr (List.mem_cons_of_mem _ h)
      · intro r hr
        rcases List.mem_cons.mp hr with h | h
        · injection h with h
          subst h
          exact le_trans hba hle
        · exact hbnd r h

/-- On a non-empty all-numeric series, `Series.min` is a numeric value of
the series bounding it from below. -/
theorem seriesMin_spec (l : List Cell) (hne : l ≠ [])
    (hall : ∀ c ∈ l, c.isNum = true) :
    ∃ q : ℚ, seriesMin l = .num q ∧ .num q ∈ l ∧
      ∀ r : ℚ, .num r ∈ l → q ≤ r := by
  cases l with
  | nil => exact absurd rfl hne
  | cons c cs =>
    have hc := hall c (List.mem_cons_self ..)
    obtain ⟨a, rfl⟩ : ∃ a, c = .num a := by
      cases hcc : c <;> simp [Cell.isNum, hcc] at hc ⊢
    obtain ⟨q, hq, hmem, hle, hbnd⟩ :=
      foldlMin_num cs a (fun x hx => hall x (List.mem_cons_of_mem _ hx))
    refine ⟨q, ?_, ?_, ?_⟩
    · rw [seriesMin]
      exact hq
    · rcases hmem with h | h
      · subst h
        exact List.mem_cons_self ..
      · exact List.mem_cons_of_mem _ h
    · intro r hr
      rcases List.mem_cons.mp hr with h | h
      · injection h with h
        subst h
        exact hle
      · exact hbnd r h

/-- On a non-empty all-numeric series, `Series.max` is a numeric value of
the series bounding it from above. -/
theorem seriesMax_spec (l : List Cell) (hne : l ≠ [])
    (hall : ∀ c ∈ l, c.isNum = true) :
    ∃ q : ℚ, seriesMax l = .num q ∧ .num q ∈ l ∧
      ∀ r : ℚ, .num r ∈ l → r ≤ q := by
  cases l with
  | nil => exact absurd rfl hne
  | cons c cs =>
    have hc := hall c (List.mem_cons_self ..)
    obtain ⟨a, rfl⟩ : ∃ a, c = .num a := by
      cases hcc : c <;> simp [Cell.isNum, hcc] at hc ⊢
    obtain ⟨q, hq, hmem, hle, hbnd⟩ :=
      foldlMax_num cs a (fun x hx => hall x (List.mem_cons_of_mem _ hx))
    refine ⟨q, ?_, ?_, ?_⟩
    · rw [seriesMax]
      exact hq
    · rcases hmem with h | h
      · subst h
        exact List.mem_cons_self ..
      · exact List.mem_cons_of_mem _ h
    · intro r hr
      rcases List.mem_cons.mp hr with h | h
      · injection h with h
        subst h
        exact hle
      · exact hbnd r h

/-- The grid over finite endpoints has the requested resolution. -/
theorem length_linspaceC_num (a b : ℚ) (n : ℕ) :
    (linspaceC (.num a) (.num b) n).length = n := by
  simp only [linspaceC, List.length_map, List.length_range]

/-- Closed form of each grid sample over finite endpoints. -/
theorem getElem?_linspaceC_num (a b : ℚ) (n i : ℕ) (h : i < n) :
    (linspaceC (.num a) (.num b) n)[i]?
      = some (.num (a + (b - a) * i / ((n : ℚ) - 1))) := by
  simp only [linspaceC]
  rw [List.getElem?_map, List.getElem?_range h]
  rfl

/-- The first grid sample is the left endpoint. -/
theorem head?_linspaceC_num (a b : ℚ) :
    (linspaceC (.num a) (.num b) 500).head? = some (.num a) := by
  rw [List.head?_eq_getElem?, getElem?_linspaceC_num a b 500 0 (by norm_num)]
  norm_num

/-- The last grid sample is the right endpoint. -/
theorem getLast?_linspaceC_num (a b : ℚ) :
    (linspaceC (.num a) (.num b) 500).getLast? = some (.num b) := by
  rw [List.getLast?_eq_getElem?, length_linspaceC_num,
    getElem?_linspaceC_num a b 500 499 (by norm_num)]
  simp only [Option.some.injEq, Cell.num.injEq]
  push_cast
  rw [mul_div_assoc, show (499 : ℚ) / ((500 : ℚ) - 1) = 1 by norm_num]
  ring

/-- C8: whenever `compare_score_distributions` succeeds on two groups whose
retained observations are all finite, both density series are evaluated over
one shared grid of 500 evenly spaced samples whose endpoints are the minimum
and the maximum of the combined observations of the two groups.  (In the
program, success implies finiteness: scipy's `gaussian_kde` — abstracted
here as the total parameter `kde` — raises on non-finite data before the
grid is built, so the finiteness hypothesis captures exactly the successful
runs.) -/
theorem C8_shared_grid (kde : List Cell → Cell → ℚ) (df : DF ℤ)
    (targetCol : String) (c1 c2 : ℤ) (fig : Fig)
    (hok : (compare_score_distributions kde df targetCol c1 c2).2 = .ok fig)
    (hfin : ∀ c ∈ cfgData (coerceTargets df) c1 ++ cfgData (coerceTargets df) c2,
      c.isNum = true) :
    ∃ qa qb : ℚ,
      qa ∈ numsOf (cfgData (coerceTargets df) c1 ++ cfgData (coerceTargets df) c2) ∧
      qb ∈ numsOf (cfgData (coerceTargets df) c1 ++ cfgData (coerceTargets df) c2) ∧
      (∀ r ∈ numsOf (cfgData (coerceTargets df) c1 ++ cfgData (coerceTargets df) c2),
        qa ≤ r ∧ r ≤ qb) ∧
      fig.trace1.x = linspaceC (.num qa) (.num qb) 500 ∧
      fig.trace2.x = fig.trace1.x ∧
      fig.trace1.x.length = 500 ∧
      fig.trace1.x.head? = some (.num qa) ∧
      fig.trace1.x.getLast? = some (.num qb) ∧
      (∀ i : ℕ, i + 1 < 500 →
        ∃ u v : ℚ, fig.trace1.x[i]? = some (.num u) ∧
          fig.trace1.x[i + 1]? = some (.num v) ∧ v - u = (qb - qa) / 499) ∧
      fig.trace1.y = fig.trace1.x.map (kde (cfgData (coerceTargets df) c1)) ∧
      fig.trace2.y = fig.trace1.x.map (kde (cfgData (coerceTargets df) c2)) := by
  have hall1 : ∀ c ∈ cfgData (coerceTargets df) c1, c.isNum = true :=
    fun c hc => hfin c (List.mem_append_left _ hc)
  have hall2 : ∀ c ∈ cfgData (coerceTargets df) c2, c.isNum = true :=
    fun c hc => hfin c (List.mem_append_right _ hc)
  simp only [compare_score_distributions] at hok
  by_cases hemp : ((cfgData (coerceTargets df) c1).isEmpty
      || (cfgData (coerceTargets df) c2).isEmpty) = true
  · rw [if_pos hemp] at hok
    simp at hok
  · rw [if_neg hemp] at hok
    injection hok with hfig
    have hne1 : cfgData (coerceTargets df) c1 ≠ [] := by
      intro h
      exact hemp (by simp [h])
    have hne2 : cfgData (coerceTargets df) c2 ≠ [] := by
      intro h
      exact hemp (by simp [h])
    obtain ⟨m1, hm1, hm1mem, hm1bnd⟩ := seriesMin_spec _ hne1 hall1
    obtain ⟨m2, hm2, hm2mem, hm2bnd⟩ := seriesMin_spec _ hne2 hall2
    obtain ⟨M1, hM1, hM1mem, hM1bnd⟩ := seriesMax_spec _ hne1 hall1
    obtain ⟨M2, hM2, hM2mem, hM2bnd⟩ := seriesMax_spec _ hne2 hall2
    have hxmin : (if Cell.numLE (seriesMin (cfgData (coerceTargets df) c1))
          (seriesMin (cfgData (coerceTargets df) c2))
        then seriesMin (cfgData (coerceTargets df) c1)
        else seriesMin (cfgData (coerceTargets df) c2))
        = .num (if m1 ≤ m2 then m1 else m2) := by
      rw [hm1, hm2]
      by_cases h12 : m1 ≤ m2 <;> simp [Cell.numLE, h12]
    have hxmax : (if Cell.numLE (seriesMax (cfgData (coerceTargets df) c1))
          (seriesMax (cfgData (coerceTargets df) c2))
        then seriesMax (cfgData (coerceTargets df) c2)
        else seriesMax (cfgData (coerceTargets df) c1))
        = .num (if M1 ≤ M2 then M2 else M1) := by
      rw [hM1, hM2]
      by_cases h12 : M1 ≤ M2 <;> simp [Cell.numLE, h12]
    have hfx : fig.trace1.x
        = linspaceC (.num (if m1 ≤ m2 then m1 else m2))
            (.num (if M1 ≤ M2 then M2 else M1)) 500 := by
      rw [← hfig, hxmin, hxmax]
    have hfx2 : fig.trace2.x = fig.trace1.x := by
      rw [← hfig]
    have hfy1 : fig.trace1.y
        = fig.trace1.x.map (kde (cfgData (coerceTargets df) c1)) := by
      rw [← hfig]
    have hfy2 : fig.trace2.y
        = fig.trace1.x.map (kde (cfgData (coerceTargets df) c2)) := by
      rw [← hfig]
    have hqa1 : (if m1 ≤ m2 then m1 else m2) ≤ m1 := by
      by_cases h12 : m1 ≤ m2
      · simp [h12]
      · simp [h12]
        exact le_of_not_le h12
    have hqa2 : (if m1 ≤ m2 then m1 else m2) ≤ m2 := by
      by_cases h12 : m1 ≤ m2
      · simp [h12]
      · simp [h12]
    have hqb1 : M1 ≤ (if M1 ≤ M2 then M2 else M1) := by
      by_cases h12 : M1 ≤ M2
      · simp [h12]
      · simp [h12]
    have hqb2 : M2 ≤ (if M1 ≤ M2 then M2 else M1) := by
      by_cases h12 : M1 ≤ M2
      · simp [h12]
      · simp [h12]
        exact le_of_not_le h12
    refine ⟨if m1 ≤ m2 then m1 else m2, if M1 ≤ M2 then M2 else M1,
      ?_, ?_, ?_, hfx, hfx2, ?_, ?_, ?_, ?_, hfy1, hfy2⟩
    · by_cases h12 : m1 ≤ m2
      · simp only [if_pos h12]
        exact (mem_numsOf ..).mpr (List.mem_append_left _ hm1mem)
      · simp only [if_neg h12]
        exact (mem_numsOf ..).mpr (List.mem_append_right _ hm2mem)
    · by_cases h12 : M1 ≤ M2
      · simp only [if_pos h12]
        exact (mem_numsOf ..).mpr (List.mem_append_right _ hM2mem)
      · simp only [if_neg h12]
        exact (mem_numsOf ..).mpr (List.mem_append_left _ hM1mem)
    · intro r hr
      rcases List.mem_append.mp ((mem_numsOf ..).mp hr) with h | h
      · exact ⟨le_trans hqa1 (hm1bnd r h), le_trans (hM1bnd r h) hqb1⟩
      · exact ⟨le_trans hqa2 (hm2bnd r h), le_trans (hM2bnd r h) hqb2⟩
    · rw [hfx, length_linspaceC_num]
    · rw [hfx, head?_linspaceC_num]
    · rw [hfx, getLast?_linspaceC_num]
    · intro i hi
      refine ⟨(if m1 ≤ m2 then m1 else m2)
          + ((if M1 ≤ M2 then M2 else M1) - (if m1 ≤ m2 then m1 else m2)) * (i : ℚ)
            / (((500 : ℕ) : ℚ) - 1),
        (if m1 ≤ m2 then m1 else m2)
          + ((if M1 ≤ M2 then M2 else M1) - (if m1 ≤ m2 then m1 else m2))
            * (((i + 1 : ℕ)) : ℚ) / (((500 : ℕ) : ℚ) - 1), ?_, ?_, ?_⟩
      · rw [hfx, getElem?_linspaceC_num _ _ 500 i (by omega)]
      · rw [hfx, getElem?_linspaceC_num _ _ 500 (i + 1) hi]
      · push_cast
        ring

/-- Witness for C8 on the concrete all-finite dataframe `dfFin` with the
sample density estimator. -/
theorem C8_witness :
    ∃ qa qb : ℚ,
      qa ∈ numsOf (cfgData (coerceTargets dfFin) 1 ++ cfgData (coerceTargets dfFin) 2) ∧
      qb ∈ numsOf (cfgData (coerceTargets dfFin) 1 ++ cfgData (coerceTargets dfFin) 2) ∧
      (∀ r ∈ numsOf (cfgData (coerceTargets dfFin) 1 ++ cfgData (coerceTargets dfFin) 2),
        qa ≤ r ∧ r ≤ qb) ∧
      figSample.trace1.x = linspaceC (.num qa) (.num qb) 500 ∧
      figSample.trace2.x = figSample.trace1.x ∧
      figSample.trace1.x.length = 500 ∧
      figSample.trace1.x.head? = some (.num qa) ∧
      figSample.trace1.x.getLast? = some (.num qb) ∧
      (∀ i : ℕ, i + 1 < 500 →
        ∃ u v : ℚ, figSample.trace1.x[i]? = some (.num u) ∧
          figSample.trace1.x[i + 1]? = some (.num v) ∧ v - u = (qb - qa) / 499) ∧
      figSample.trace1.y = figSample.trace1.x.map (kdeSample (cfgData (coerceTargets dfFin) 1)) ∧
      figSample.trace2.y = figSample.trace1.x.map (kdeSample (cfgData (coerceTargets dfFin) 2)) :=
  C8_shared_grid kdeSample dfFin "result.latency" 1 2 figSample (by rfl) (by decide)

/-- In the refined model too, lines 14–16 keep exactly the rows with a
finite numeric target (the grouping cell plays no role). -/
theorem gValidRows_eq [DecidableEq α] (df : List (GRow α)) :
    gValidRows df = df.filter fun r => r.target.isNum := by
  induction df with
  | nil => rfl
  | cons r rs ih =>
    obtain ⟨g, t⟩ := r
    cases t <;>
      simp_all [gValidRows, Cell.isNull, Cell.isNum, toNumericCoerce,
        List.filter_cons]

/-- Every row surviving the refined filtering carries a finite numeric
target. -/
theorem gValidRows_isNum [DecidableEq α] {df : List (GRow α)} {r : GRow α}
    (hr : r ∈ gValidRows df) : r.target.isNum = true := by
  rw [gValidRows_eq] at hr
  exact (List.mem_filter.mp hr).2

/-- The refined filtering keeps only rows of the input dataframe. -/
theorem mem_of_mem_gValidRows [DecidableEq α] {df : List (GRow α)}
    {r : GRow α} (hr : r ∈ gValidRows df) : r ∈ df := by
  rw [gValidRows_eq] at hr
  exact (List.mem_filter.mp hr).1

/-- A non-missing grouping value named in the group column of an
all-numeric refined dataframe selects at least one row under pandas `==`,
so its series is non-empty. -/
theorem gGroupVals_ne_nil [DecidableEq α] {df : List (GRow α)} {g : GVal α}
    (hall : ∀ r ∈ df, r.target.isNum = true) (hna : g ≠ GVal.na)
    (hg : g ∈ df.map GRow.group) :
    gGroupVals df g ≠ [] := by
  rcases List.mem_map.mp hg with ⟨r0, hr0, hgr⟩
  have hnum := hall r0 hr0
  obtain ⟨q, hq⟩ : ∃ q, r0.target = .num q := by
    cases h : r0.target <;> simp [Cell.isNum, h] at hnum ⊢
  obtain ⟨a, rfl⟩ : ∃ a, g = GVal.val a := by
    cases g with
    | na => exact absurd rfl hna
    | val a => exact ⟨a, rfl⟩
  intro hnil
  have hqmem : q ∈ gGroupVals df (GVal.val a) :=
    List.mem_filterMap.mpr
      ⟨r0, hr0, by simp [hgr, hq, Cell.toNum?, GVal.pandasEq]⟩
  simp [hnil] at hqmem

/-- C10 (amended): the empty-group skip branch never executes for a
dataframe whose grouping-column values are all non-missing — then every
enumerated group value selects at least one row of the filtered dataframe
and the condition `data_i.empty or data_j.empty` is false for every
enumerated pair.  (A missing grouping value makes the branch reachable:
see the counterexample.) -/
theorem C10_amended [DecidableEq α] (df : List (GRow α))
    (hna : ∀ r ∈ df, r.group ≠ GVal.na)
    (p : GVal α × GVal α) (hp : p ∈ pairsOf (gConfigsOf df)) :
    ((gGroupVals (gValidRows df) p.1).isEmpty
      || (gGroupVals (gValidRows df) p.2).isEmpty) = false := by
  have hall : ∀ r ∈ gValidRows df, r.target.isNum = true :=
    fun r hr => gValidRows_isNum hr
  obtain ⟨h1, h2⟩ := mem_of_mem_pairsOf hp
  rw [gConfigsOf, mem_pandasUnique] at h1 h2
  have hna1 : p.1 ≠ GVal.na := by
    rcases List.mem_map.mp h1 with ⟨r0, hr0, hgr⟩
    rw [← hgr]
    exact hna r0 (mem_of_mem_gValidRows hr0)
  have hna2 : p.2 ≠ GVal.na := by
    rcases List.mem_map.mp h2 with ⟨r0, hr0, hgr⟩
    rw [← hgr]
    exact hna r0 (mem_of_mem_gValidRows hr0)
  have g1 := gGroupVals_ne_nil hall hna1 h1
  have g2 := gGroupVals_ne_nil hall hna2 h2
  simp [List.isEmpty_iff, g1, g2]

/-- Counterexample to C10 as stated: with grouping column `[NaN, 1, 1]` and
finite targets, the missing grouping value survives the target-column
filters of lines 14–15 and is listed by `unique()`, yet `df[group_col] ==
NaN` selects no row, so the enumerated pair `(NaN, 1)` has an empty
`data_i`, the condition holds, the `continue` executes, and the call
returns an empty table although one pair was enumerated. -/
theorem C10_counterexample :
    (GVal.na, GVal.val (1 : ℤ)) ∈ pairsOf (gConfigsOf dfNaGroup) ∧
    ((gGroupVals (gValidRows dfNaGroup) (GVal.na : GVal ℤ)).isEmpty
      || (gGroupVals (gValidRows dfNaGroup) (GVal.val (1 : ℤ))).isEmpty) = true ∧
    gRun_pairwise_stat_tests ttSample mwSample dfNaGroup 50 "ttest" = .ok [] ∧
    (pairsOf (gConfigsOf dfNaGroup)).length = 1 :=
  ⟨by decide, by rfl, by rfl, by rfl⟩

/-- Witness for C10 (amended) at the concrete pair `(1, 2)` of the
NaN-free dataframe `dfValGroup`. -/
theorem C10_witness :
    ((gGroupVals (gValidRows dfValGroup)
        ((GVal.val (1 : ℤ), GVal.val (2 : ℤ))).1).isEmpty
      || (gGroupVals (gValidRows dfValGroup)
        ((GVal.val (1 : ℤ), GVal.val (2 : ℤ))).2).isEmpty) = false :=
  C10_amended dfValGroup (by decide) (GVal.val 1, GVal.val 2)
    (by rw [show pairsOf (gConfigsOf dfValGroup)
          = [(GVal.val (1 : ℤ), GVal.val (2 : ℤ))] from by rfl]
        exact List.mem_singleton_self _)
